import Mathlib

set_option maxHeartbeats 1000000

/-!
# Verification of the morning-stack edition collection pipeline

Shallow embedding of the cron collection route
(src/app/api/cron/collect/route.ts), the cache module (src/lib/cache.ts)
and the GitHub / YouTube source fetchers (src/lib/sources/github.ts,
src/lib/sources/youtube.ts), with theorems checking the specification
claims about them.

Modelling conventions:
* JavaScript numbers are modelled as rationals; Math.round is jsRound.
* null / undefined are modelled with Option.
* A settled promise is modelled with the Settled inductive; a function
  that can throw returns Except String.
* Wall-clock derived inputs (edition type, date string, publish time)
  are passed in as parameters of the orchestrator model.
* Record<string, unknown> metadata bags are association lists over a
  small JSON-like value type.
-/

namespace MorningStack

/-- Supported article source identifiers (ArticleSource in src/types/article.ts). -/
inductive ArticleSource where
  | hackernews
  | github
  | github_prs
  | reddit
  | producthunt
  | tech_rss
  | hatena
  | bluesky
  | youtube
  | world_news
deriving DecidableEq

/-- JSON-like values appearing in a metadata bag. -/
inductive MetaValue where
  | str (s : String)
  | num (q : ℚ)
  | boolean (b : Bool)
  | null
deriving DecidableEq

/-- A normalized article collected from an external source
(interface Article in src/types/article.ts). -/
structure Article where
  source : ArticleSource
  title : String
  url : String
  thumbnailUrl : Option String
  excerpt : Option String
  score : ℚ
  externalId : String
  metadata : List (String × MetaValue)
deriving DecidableEq

/-- Maximum articles kept per source (TOP_N_PER_SOURCE in the route). -/
def TOP_N_PER_SOURCE : ArticleSource → ℕ
  | .hackernews => 5
  | .github => 5
  | .github_prs => 10
  | .reddit => 5
  | .tech_rss => 5
  | .hatena => 5
  | .producthunt => 5
  | .bluesky => 3
  | .youtube => 3
  | .world_news => 5

/-- A per-source score range. -/
structure ScoreRange where
  min : ℚ
  max : ℚ
deriving DecidableEq

/-- Score normalization ranges per source (SCORE_RANGES in the route). -/
def SCORE_RANGES : ArticleSource → ScoreRange
  | .hackernews => ⟨0, 500⟩
  | .github => ⟨0, 5000⟩
  | .github_prs => ⟨0, 100⟩
  | .reddit => ⟨0, 5000⟩
  | .tech_rss => ⟨0, 100⟩
  | .hatena => ⟨0, 500⟩
  | .producthunt => ⟨0, 500⟩
  | .bluesky => ⟨0, 200⟩
  | .youtube => ⟨0, 1000000⟩
  | .world_news => ⟨0, 100⟩

/-- JavaScript Math.round on rationals: floor of x + 1/2. -/
def jsRound (x : ℚ) : ℤ :=
  Int.floor (x + 1 / 2)

/-- Per-article score mapping of normalizeScores in the route:
Math.round(Math.min(100, Math.max(0, ((score - min) / (max - min)) * 100))). -/
def normalizeScore (source : ArticleSource) (raw : ℚ) : ℚ :=
  let range := SCORE_RANGES source
  ((jsRound (min 100 (max 0 ((raw - range.min) / (range.max - range.min) * 100))) : ℤ) : ℚ)

/-- normalizeScores from the route: map every article score through the
per-source clamp-and-round formula, leaving all other fields unchanged. -/
def normalizeScores (fetchedArticles : List Article) (source : ArticleSource) :
    List Article :=
  fetchedArticles.map fun article => { article with score := normalizeScore source article.score }

/-- Formula stated by the spec for one score:
clamp(0, 100, round(100 * (rawScore - rangeMin) / (rangeMax - rangeMin))),
with the clamp applied after rounding. -/
def specNormalizedScore (source : ArticleSource) (raw : ℚ) : ℚ :=
  let range := SCORE_RANGES source
  ((min (100 : ℤ) (max 0 (jsRound (100 * (raw - range.min) / (range.max - range.min)))) : ℤ) : ℚ)

/-- Comparator of the route sort call (a, b) => b.score - a.score, as the
lenient order used by a stable descending sort: a may precede b. -/
def scoreGe (a b : Article) : Prop :=
  b.score ≤ a.score

instance : DecidableRel scoreGe :=
  fun a b => inferInstanceAs (Decidable (b.score ≤ a.score))

instance : IsTotal Article scoreGe :=
  ⟨fun a b => le_total b.score a.score⟩

instance : IsTrans Article scoreGe :=
  ⟨fun _ _ _ hab hbc => le_trans hbc hab⟩

/-- selectTopN from the route: copy the list, sort it descending by score
and keep the first n entries.  ECMA-262 requires Array.prototype.sort to be
stable, so the sort is embedded as insertion sort with the lenient
relation scoreGe, which places an earlier element before later elements
of equal score. -/
def selectTopN (normalizedArticles : List Article) (n : ℕ) : List Article :=
  (List.insertionSort scoreGe normalizedArticles).take n

-- ─── Arithmetic facts about jsRound ─────────────────────────────────

lemma jsRound_mono {x y : ℚ} (h : x ≤ y) : jsRound x ≤ jsRound y :=
  Int.floor_le_floor (by linarith)

lemma jsRound_zero : jsRound 0 = 0 := by
  rw [jsRound]
  norm_num

lemma jsRound_hundred : jsRound 100 = 100 := by
  rw [jsRound]
  rw [show (100 : ℚ) + 1 / 2 = 1 / 2 + (100 : ℤ) by push_cast; ring]
  rw [Int.floor_add_int]
  norm_num

lemma jsRound_clamp (x : ℚ) :
    jsRound (min 100 (max 0 x)) = min (100 : ℤ) (max 0 (jsRound x)) := by
  rcases le_total x 0 with h0 | h0
  · have h1 : min (100 : ℚ) (max 0 x) = 0 := by
      rw [max_eq_left h0, min_eq_right]
      norm_num
    have h2 : jsRound x ≤ 0 := by
      have := jsRound_mono h0
      rwa [jsRound_zero] at this
    rw [h1, jsRound_zero, max_eq_left h2, min_eq_right]
    norm_num
  · rcases le_total x 100 with h1 | h1
    · have hmm : min (100 : ℚ) (max 0 x) = x := by
        rw [max_eq_right h0, min_eq_right h1]
      have l0 : 0 ≤ jsRound x := by
        have := jsRound_mono h0
        rwa [jsRound_zero] at this
      have l1 : jsRound x ≤ 100 := by
        have := jsRound_mono h1
        rwa [jsRound_hundred] at this
      rw [hmm, max_eq_right l0, min_eq_right l1]
    · have hmm : min (100 : ℚ) (max 0 x) = 100 := by
        rw [max_eq_right (le_trans (by norm_num) h1), min_eq_left h1]
      have l1 : 100 ≤ jsRound x := by
        have := jsRound_mono h1
        rwa [jsRound_hundred] at this
      rw [hmm, jsRound_hundred, max_eq_right (le_trans (by norm_num) l1), min_eq_left l1]

lemma scoreRange_lt (s : ArticleSource) : (SCORE_RANGES s).min < (SCORE_RANGES s).max := by
  cases s <;> norm_num [SCORE_RANGES]

lemma normalizeScore_eq_spec (s : ArticleSource) (raw : ℚ) :
    normalizeScore s raw = specNormalizedScore s raw := by
  rw [normalizeScore, specNormalizedScore]
  have harg : (raw - (SCORE_RANGES s).min) / ((SCORE_RANGES s).max - (SCORE_RANGES s).min) * 100 =
      100 * (raw - (SCORE_RANGES s).min) / ((SCORE_RANGES s).max - (SCORE_RANGES s).min) := by
    ring
  rw [harg, jsRound_clamp]

lemma normalizeScore_nonneg (s : ArticleSource) (raw : ℚ) :
    0 ≤ normalizeScore s raw := by
  rw [normalizeScore]
  have h : (0 : ℤ) ≤ jsRound (min 100 (max 0 ((raw - (SCORE_RANGES s).min) /
      ((SCORE_RANGES s).max - (SCORE_RANGES s).min) * 100))) := by
    rw [jsRound_clamp]
    exact le_min (by norm_num) (le_max_left 0 _)
  exact_mod_cast h

lemma normalizeScore_le_hundred (s : ArticleSource) (raw : ℚ) :
    normalizeScore s raw ≤ 100 := by
  rw [normalizeScore]
  have h : jsRound (min 100 (max 0 ((raw - (SCORE_RANGES s).min) /
      ((SCORE_RANGES s).max - (SCORE_RANGES s).min) * 100))) ≤ (100 : ℤ) := by
    rw [jsRound_clamp]
    exact min_le_left _ _
  exact_mod_cast h

lemma normalizeScore_at_min (s : ArticleSource) (raw : ℚ)
    (h : raw ≤ (SCORE_RANGES s).min) : normalizeScore s raw = 0 := by
  rw [normalizeScore]
  have hden : (0 : ℚ) < (SCORE_RANGES s).max - (SCORE_RANGES s).min := by
    have := scoreRange_lt s
    linarith
  have harg : (raw - (SCORE_RANGES s).min) / ((SCORE_RANGES s).max - (SCORE_RANGES s).min) * 100 ≤ 0 := by
    have hnum : raw - (SCORE_RANGES s).min ≤ 0 := by linarith
    have := div_nonpos_of_nonpos_of_nonneg hnum (le_of_lt hden)
    nlinarith
  have h1 : min (100 : ℚ) (max 0 ((raw - (SCORE_RANGES s).min) /
      ((SCORE_RANGES s).max - (SCORE_RANGES s).min) * 100)) = 0 := by
    rw [max_eq_left harg, min_eq_right (by norm_num)]
  rw [h1, jsRound_zero]
  norm_num

lemma normalizeScore_at_max (s : ArticleSource) (raw : ℚ)
    (h : (SCORE_RANGES s).max ≤ raw) : normalizeScore s raw = 100 := by
  rw [normalizeScore]
  have hden : (0 : ℚ) < (SCORE_RANGES s).max - (SCORE_RANGES s).min := by
    have := scoreRange_lt s
    linarith
  have harg : (100 : ℚ) ≤ (raw - (SCORE_RANGES s).min) /
      ((SCORE_RANGES s).max - (SCORE_RANGES s).min) * 100 := by
    have hnum : (SCORE_RANGES s).max - (SCORE_RANGES s).min ≤ raw - (SCORE_RANGES s).min := by
      linarith
    have hq : (1 : ℚ) ≤ (raw - (SCORE_RANGES s).min) /
        ((SCORE_RANGES s).max - (SCORE_RANGES s).min) :=
      (one_le_div hden).mpr hnum
    nlinarith
  have h1 : min (100 : ℚ) (max 0 ((raw - (SCORE_RANGES s).min) /
      ((SCORE_RANGES s).max - (SCORE_RANGES s).min) * 100)) = 100 := by
    rw [max_eq_right (le_trans (by norm_num) harg), min_eq_left harg]
  rw [h1, jsRound_hundred]
  norm_num

-- ─── Stability of the embedded sort ─────────────────────────────────

lemma filter_orderedInsert (q : ℚ) (a : Article) :
    ∀ l : List Article,
      (List.orderedInsert scoreGe a l).filter (fun x => decide (x.score = q)) =
        if a.score = q then a :: l.filter (fun x => decide (x.score = q))
        else l.filter (fun x => decide (x.score = q))
  | [] => by
      by_cases h : a.score = q <;> simp [List.orderedInsert, h]
  | b :: t => by
      by_cases hab : scoreGe a b
      · rw [List.orderedInsert, if_pos hab]
        by_cases hq : a.score = q <;> simp [List.filter_cons, hq]
      · rw [List.orderedInsert, if_neg hab]
        have hlt : a.score < b.score := lt_of_not_le hab
        by_cases hq : a.score = q
        · have hbq : ¬(b.score = q) := by
            intro hb
            rw [hq] at hlt
            rw [hb] at hlt
            exact lt_irrefl q hlt
          rw [if_pos hq]
          rw [List.filter_cons, List.filter_cons]
          rw [show (decide (b.score = q)) = false by simp [hbq]]
          simp only [Bool.false_eq_true, if_false]
          rw [filter_orderedInsert q a t, if_pos hq]
        · rw [if_neg hq]
          rw [List.filter_cons, List.filter_cons]
          rw [filter_orderedInsert q a t, if_neg hq]

lemma filter_insertionSort (q : ℚ) :
    ∀ l : List Article,
      (List.insertionSort scoreGe l).filter (fun x => decide (x.score = q)) =
        l.filter (fun x => decide (x.score = q))
  | [] => rfl
  | a :: t => by
      rw [List.insertionSort, filter_orderedInsert, filter_insertionSort q t, List.filter_cons]
      by_cases h : a.score = q <;> simp [h]

/-- Claim C4: selectTopN equals taking the first K elements of a stable
descending sort of its input: the sorted intermediate list is a
permutation of the input, is sorted by descending score, and preserves
the original relative order of equal-score articles; the result has
min(K, length) elements.  Determinism and absence of input mutation are
inherent to the pure-function embedding. -/
theorem selectTopN_spec :
    ∀ (l : List Article) (k : ℕ),
      (∃ sorted : List Article,
        selectTopN l k = sorted.take k ∧
        List.Perm sorted l ∧
        List.Sorted scoreGe sorted ∧
        ∀ q : ℚ, sorted.filter (fun x => decide (x.score = q)) =
          l.filter (fun x => decide (x.score = q))) ∧
      (selectTopN l k).length = min k l.length := by
  intro l k
  refine ⟨⟨List.insertionSort scoreGe l, rfl, List.perm_insertionSort _ _,
    List.sorted_insertionSort _ _, fun q => filter_insertionSort q l⟩, ?_⟩
  rw [selectTopN, List.length_take, (List.perm_insertionSort scoreGe l).length_eq]

-- ─── Cache model (src/lib/cache.ts) ─────────────────────────────────

/-- Outcome of one awaited cacheGet call, as seen by a fetcher.  cacheGet
resolves null when Redis is not configured or the key is missing, resolves
a stored value otherwise, and rejects when the underlying redis.get call
rejects (cacheGet has no catch of its own). -/
inductive CacheReadResult (α : Type) where
  | value (v : α)
  | absent
  | thrown (e : String)
deriving DecidableEq

-- ─── GitHub fetcher (src/lib/sources/github.ts) ─────────────────────

/-- A repository item of the GitHub search response. -/
structure GitHubRepo where
  id : ℕ
  name : String
  full_name : String
  html_url : String
  description : Option String
  stargazers_count : ℚ
  language : Option String
  owner_avatar_url : String
deriving DecidableEq

/-- Top level GitHub search response. -/
structure GitHubSearchResponse where
  total_count : ℕ
  items : List GitHubRepo
deriving DecidableEq

/-- One HTTP response observed by fetchWithRetry; retryAfter is the parsed
Retry-After header in seconds when present. -/
structure HttpResponse where
  status : ℕ
  retryAfter : Option ℚ
  body : GitHubSearchResponse
deriving DecidableEq

/-- res.ok of the fetch API: status in the 200 to 299 range. -/
def HttpResponse.ok (r : HttpResponse) : Bool :=
  decide (200 ≤ r.status ∧ r.status < 300)

/-- Maximum retry attempts for rate limited requests. -/
def MAX_RETRIES : ℕ := 3

/-- Base delay for exponential backoff in milliseconds. -/
def BASE_DELAY_MS : ℚ := 1000

/-- Rate limiting test of the retry loop: HTTP 403 or 429. -/
def isRateLimited (r : HttpResponse) : Bool :=
  r.status == 403 || r.status == 429

/-- Backoff delay for one retry: the Retry-After hint in seconds times
1000 when present, otherwise BASE_DELAY_MS doubled each attempt. -/
def retryDelayMs (r : HttpResponse) (attempt : ℕ) : ℚ :=
  match r.retryAfter with
  | some v => v * 1000
  | none => BASE_DELAY_MS * 2 ^ attempt

/-- Observable trace of one fetchWithRetry call: how many fetch calls
were made, the backoff delays slept between them, and the outcome. -/
structure RetryTrace where
  attempts : ℕ
  delays : List ℚ
  outcome : Except String GitHubSearchResponse

/-- Body of the fetchWithRetry loop.  fuel is the number of loop
iterations still allowed (MAX_RETRIES + 1 - attempt at every reachable
call); the fuel = 0 branch is the throw after the loop, which is dead
code from the entry point because the retry guard also checks
attempt < MAX_RETRIES. -/
def fetchWithRetryGo (responses : ℕ → HttpResponse) : ℕ → ℕ → RetryTrace
  | _, 0 => ⟨0, [], .error "[GitHub] Exhausted all retry attempts"⟩
  | attempt, fuel + 1 =>
    if (responses attempt).ok then
      ⟨1, [], .ok (responses attempt).body⟩
    else if isRateLimited (responses attempt) && decide (attempt < MAX_RETRIES) then
      ⟨(fetchWithRetryGo responses (attempt + 1) fuel).attempts + 1,
        retryDelayMs (responses attempt) attempt ::
          (fetchWithRetryGo responses (attempt + 1) fuel).delays,
        (fetchWithRetryGo responses (attempt + 1) fuel).outcome⟩
    else
      ⟨1, [], .error ("GitHub API responded with " ++ toString (responses attempt).status)⟩

/-- fetchWithRetry from src/lib/sources/github.ts, as a trace over an
arbitrary sequence of upstream responses (responses i is what the fetch
on attempt i would return). -/
def fetchWithRetry (responses : ℕ → HttpResponse) : RetryTrace :=
  fetchWithRetryGo responses 0 (MAX_RETRIES + 1)

/-- Conversion of nullable strings into metadata values. -/
def metaOfOptStr : Option String → MetaValue
  | some s => .str s
  | none => .null

/-- mapReposToArticles from src/lib/sources/github.ts. -/
def mapReposToArticles (repos : List GitHubRepo) : List Article :=
  repos.map fun repo =>
    { source := .github
      title := repo.full_name
      url := repo.html_url
      thumbnailUrl := some repo.owner_avatar_url
      excerpt := repo.description
      score := repo.stargazers_count
      externalId := toString repo.id
      metadata := [("name", .str repo.name), ("stars", .num repo.stargazers_count),
        ("language", metaOfOptStr repo.language),
        ("description", metaOfOptStr repo.description)] }

/-- fetchGitHubArticles from src/lib/sources/github.ts.  read1 is the
initial cache read (performed before the try block), read2 the stale
read performed in the catch block; the write back to cache is fire and
forget and has no observable effect on the return value.  An empty
cached array is truthy in JavaScript and is returned as is. -/
def fetchGitHubArticles (read1 read2 : CacheReadResult (List Article))
    (responses : ℕ → HttpResponse) : Except String (List Article) :=
  match read1 with
  | .thrown e => .error e
  | .value cached => .ok cached
  | .absent =>
    match (fetchWithRetry responses).outcome with
    | .ok data => .ok (mapReposToArticles (data.items.take 5))
    | .error _ =>
      match read2 with
      | .thrown e => .error e
      | .value stale => .ok stale
      | .absent => .ok []

lemma fetchWithRetryGo_spec (responses : ℕ → HttpResponse) :
    ∀ (fuel attempt : ℕ), 0 < fuel → MAX_RETRIES < attempt + fuel →
      (fetchWithRetryGo responses attempt fuel).attempts =
        (fetchWithRetryGo responses attempt fuel).delays.length + 1 ∧
      (fetchWithRetryGo responses attempt fuel).delays.length < fuel ∧
      (∀ i (h : i < (fetchWithRetryGo responses attempt fuel).delays.length),
        isRateLimited (responses (attempt + i)) = true ∧
        (responses (attempt + i)).ok = false ∧
        attempt + i < MAX_RETRIES ∧
        (fetchWithRetryGo responses attempt fuel).delays.get ⟨i, h⟩ =
          retryDelayMs (responses (attempt + i)) (attempt + i)) ∧
      ((responses (attempt + (fetchWithRetryGo responses attempt fuel).delays.length)).ok = true →
        (fetchWithRetryGo responses attempt fuel).outcome =
          .ok (responses (attempt + (fetchWithRetryGo responses attempt fuel).delays.length)).body) ∧
      ((responses (attempt + (fetchWithRetryGo responses attempt fuel).delays.length)).ok = false →
        (fetchWithRetryGo responses attempt fuel).outcome =
          .error ("GitHub API responded with " ++
            toString (responses (attempt + (fetchWithRetryGo responses attempt fuel).delays.length)).status)) ∧
      ((responses (attempt + (fetchWithRetryGo responses attempt fuel).delays.length)).ok = true ∨
        isRateLimited (responses (attempt + (fetchWithRetryGo responses attempt fuel).delays.length)) = false ∨
        ¬ (attempt + (fetchWithRetryGo responses attempt fuel).delays.length < MAX_RETRIES)) := by
  intro fuel
  induction fuel with
  | zero => intro attempt h0 _; omega
  | succ fuel ih =>
    intro attempt _ hinv
    by_cases hok : (responses attempt).ok = true
    · have ht : fetchWithRetryGo responses attempt (fuel + 1) =
          ⟨1, [], .ok (responses attempt).body⟩ := by
        rw [fetchWithRetryGo, if_pos hok]
      rw [ht]
      refine ⟨rfl, by simp, ?_, ?_, ?_, ?_⟩
      · intro i h
        simp at h
      · intro _
        simp
      · intro hbad
        simp only [List.length_nil, Nat.add_zero] at hbad
        rw [hok] at hbad
        cases hbad
      · left
        simpa using hok
    · have hok' : (responses attempt).ok = false := by
        cases h : (responses attempt).ok
        · rfl
        · exact absurd h hok
      by_cases hretry : (isRateLimited (responses attempt) && decide (attempt < MAX_RETRIES)) = true
      · have hrl : isRateLimited (responses attempt) = true := (Bool.and_eq_true _ _).mp hretry |>.1
        have hlt : attempt < MAX_RETRIES := by
          have := (Bool.and_eq_true _ _).mp hretry |>.2
          exact of_decide_eq_true this
        have hfuel : 0 < fuel := by omega
        have hinv' : MAX_RETRIES < (attempt + 1) + fuel := by omega
        obtain ⟨ha, hlen, hdel, hoky, hokn, hterm⟩ := ih (attempt + 1) hfuel hinv'
        have ht : fetchWithRetryGo responses attempt (fuel + 1) =
            ⟨(fetchWithRetryGo responses (attempt + 1) fuel).attempts + 1,
              retryDelayMs (responses attempt) attempt ::
                (fetchWithRetryGo responses (attempt + 1) fuel).delays,
              (fetchWithRetryGo responses (attempt + 1) fuel).outcome⟩ := by
          rw [fetchWithRetryGo, if_neg hok, if_pos hretry]
        rw [ht]
        simp only [List.length_cons]
        refine ⟨by omega, by omega, ?_, ?_, ?_, ?_⟩
        · intro i h
          cases i with
          | zero =>
            refine ⟨by simpa using hrl, by simpa using hok', by simpa using hlt, ?_⟩
            simp [List.get]
          | succ j =>
            have hj : j < (fetchWithRetryGo responses (attempt + 1) fuel).delays.length := by
              simpa using Nat.lt_of_succ_lt_succ h
            obtain ⟨d1, d2, d3, d4⟩ := hdel j hj
            have hidx : attempt + (j + 1) = attempt + 1 + j := by omega
            refine ⟨by rw [hidx]; exact d1, by rw [hidx]; exact d2, by omega, ?_⟩
            simpa [List.get, hidx] using d4
        · intro h
          have hidx : attempt + ((fetchWithRetryGo responses (attempt + 1) fuel).delays.length + 1) =
              attempt + 1 + (fetchWithRetryGo responses (attempt + 1) fuel).delays.length := by
            omega
          rw [hidx] at h ⊢
          exact hoky h
        · intro h
          have hidx : attempt + ((fetchWithRetryGo responses (attempt + 1) fuel).delays.length + 1) =
              attempt + 1 + (fetchWithRetryGo responses (attempt + 1) fuel).delays.length := by
            omega
          rw [hidx] at h ⊢
          exact hokn h
        · have hidx : attempt + ((fetchWithRetryGo responses (attempt + 1) fuel).delays.length + 1) =
              attempt + 1 + (fetchWithRetryGo responses (attempt + 1) fuel).delays.length := by
            omega
          rw [hidx]
          exact hterm
      · have ht : fetchWithRetryGo responses attempt (fuel + 1) =
            ⟨1, [], .error ("GitHub API responded with " ++ toString (responses attempt).status)⟩ := by
          rw [fetchWithRetryGo, if_neg hok, if_neg hretry]
        rw [ht]
        refine ⟨rfl, by simp, ?_, ?_, ?_, ?_⟩
        · intro i h
          simp at h
        · intro hbad
          simp only [List.length_nil, Nat.add_zero] at hbad
          rw [hok'] at hbad
          cases hbad
        · intro _
          simp
        · right
          simp only [List.length_nil, Nat.add_zero]
          rcases Bool.and_eq_false_iff.mp (Bool.not_eq_true _ |>.mp hretry) with h | h
        -- placeholder
          · left; exact h
          · right
            intro hcon
            rw [decide_eq_true hcon] at h
            cases h

lemma isRateLimited_iff (r : HttpResponse) :
    isRateLimited r = true ↔ (r.status = 403 ∨ r.status = 429) := by
  simp [isRateLimited]

lemma isRateLimited_false_iff (r : HttpResponse) :
    isRateLimited r = false ↔ ¬(r.status = 403 ∨ r.status = 429) := by
  simp [isRateLimited]

lemma retryDelayMs_eq (r : HttpResponse) (i : ℕ) :
    retryDelayMs r i =
      (match r.retryAfter with
       | some v => v * 1000
       | none => 1000 * 2 ^ i) := by
  cases h : r.retryAfter <;> simp [retryDelayMs, BASE_DELAY_MS, h]

/-- Claim C7: for every sequence of upstream responses, fetchWithRetry
makes at most 4 fetch calls (one initial plus at most 3 retries), each
backoff is taken only after a 403 or 429 response on an attempt below
the retry ceiling and its delay is the Retry-After hint times 1000 when
present and otherwise 1000 * 2 ^ attempt; on the terminal attempt the
loop returns the body when the response is ok, throws with the status
otherwise, and that terminal attempt is either ok, not rate limited, or
the attempt-ceiling attempt number 3. -/
theorem fetchWithRetry_bounded_backoff (responses : ℕ → HttpResponse) :
    (fetchWithRetry responses).attempts ≤ 4 ∧
    (fetchWithRetry responses).attempts = (fetchWithRetry responses).delays.length + 1 ∧
    (∀ i (h : i < (fetchWithRetry responses).delays.length),
      ((responses i).status = 403 ∨ (responses i).status = 429) ∧
      (responses i).ok = false ∧
      i < 3 ∧
      (fetchWithRetry responses).delays.get ⟨i, h⟩ =
        (match (responses i).retryAfter with
         | some v => v * 1000
         | none => 1000 * 2 ^ i)) ∧
    ((responses (fetchWithRetry responses).delays.length).ok = true →
      (fetchWithRetry responses).outcome =
        .ok (responses (fetchWithRetry responses).delays.length).body) ∧
    ((responses (fetchWithRetry responses).delays.length).ok = false →
      (fetchWithRetry responses).outcome =
        .error ("GitHub API responded with " ++
          toString (responses (fetchWithRetry responses).delays.length).status)) ∧
    ((responses (fetchWithRetry responses).delays.length).ok = true ∨
      ¬((responses (fetchWithRetry responses).delays.length).status = 403 ∨
        (responses (fetchWithRetry responses).delays.length).status = 429) ∨
      (fetchWithRetry responses).delays.length = 3) ∧
    ((responses 0).ok = false →
      ¬((responses 0).status = 403 ∨ (responses 0).status = 429) →
      (fetchWithRetry responses).attempts = 1 ∧
      (fetchWithRetry responses).outcome =
        .error ("GitHub API responded with " ++ toString (responses 0).status)) := by
  have h3 : MAX_RETRIES = 3 := rfl
  obtain ⟨ha, hlen, hdel, hoky, hokn, hterm⟩ :=
    fetchWithRetryGo_spec responses (MAX_RETRIES + 1) 0 (by omega) (by omega)
  simp only [Nat.zero_add] at ha hlen hdel hoky hokn hterm
  have hfr : fetchWithRetry responses = fetchWithRetryGo responses 0 (MAX_RETRIES + 1) := rfl
  rw [hfr]
  refine ⟨by omega, ha, ?_, hoky, hokn, ?_, ?_⟩
  · intro i h
    obtain ⟨d1, d2, d3, d4⟩ := hdel i h
    exact ⟨(isRateLimited_iff _).mp d1, d2, by omega, by rw [d4, retryDelayMs_eq]⟩
  · rcases hterm with h | h | h
    · exact Or.inl h
    · exact Or.inr (Or.inl ((isRateLimited_false_iff _).mp h))
    · exact Or.inr (Or.inr (by omega))
  · intro hok0 hrl0
    have hL0 : (fetchWithRetryGo responses 0 (MAX_RETRIES + 1)).delays.length = 0 := by
      by_contra hne
      have hpos : 0 < (fetchWithRetryGo responses 0 (MAX_RETRIES + 1)).delays.length := by
        omega
      obtain ⟨d1, _, _, _⟩ := hdel 0 hpos
      exact hrl0 ((isRateLimited_iff _).mp d1)
    refine ⟨by omega, ?_⟩
    have := hokn (by rw [hL0]; exact hok0)
    rw [hL0] at this
    exact this

/-- A response sequence that always answers HTTP 500. -/
def rspAll500 : ℕ → HttpResponse :=
  fun _ => ⟨500, none, ⟨0, []⟩⟩

/-- Witness for C7: a permanent 500 upstream means a single attempt that
throws the status error without any retry. -/
theorem fetchWithRetry_bounded_backoff_witness :
    (fetchWithRetry rspAll500).outcome =
      .error ("GitHub API responded with " ++
        toString (rspAll500 (fetchWithRetry rspAll500).delays.length).status) :=
  (fetchWithRetry_bounded_backoff rspAll500).2.2.2.2.1 rfl

/-- Claim C6: when the fresh cache read is absent and the upstream call
fails unrecoverably, the fetcher returns exactly the list produced by
the second (stale) cache read, and the empty list only when that read is
also absent. -/
theorem fetchGitHubArticles_stale_fallback
    (read2 : CacheReadResult (List Article)) (responses : ℕ → HttpResponse) (e : String)
    (hfail : (fetchWithRetry responses).outcome = .error e) :
    (∀ prior, read2 = .value prior →
      fetchGitHubArticles .absent read2 responses = .ok prior) ∧
    (read2 = .absent → fetchGitHubArticles .absent read2 responses = .ok []) := by
  constructor
  · intro prior h2
    subst h2
    simp [fetchGitHubArticles, hfail]
  · intro h2
    subst h2
    simp [fetchGitHubArticles, hfail]

/-- A concrete previously cached article list. -/
def ghStaleList : List Article :=
  [{ source := .github, title := "octo/repo", url := "https://github.com/octo/repo",
     thumbnailUrl := some "https://avatars.example/1", excerpt := none,
     score := 1200, externalId := "1", metadata := [] }]

/-- Witness for C6: with an always-500 upstream and a stale cache entry,
the stale list is returned. -/
theorem fetchGitHubArticles_stale_fallback_witness :
    fetchGitHubArticles .absent (.value ghStaleList) rspAll500 = .ok ghStaleList :=
  (fetchGitHubArticles_stale_fallback (.value ghStaleList) rspAll500
    "GitHub API responded with 500" rfl).1 ghStaleList rfl

/-- Claim C5 failing input: the initial cacheGet is awaited outside the
try block of fetchGitHubArticles, so a rejecting cache read propagates
to the caller instead of degrading to a list, contradicting the claim
and the doc comment of the function (throws never). -/
theorem fetchGitHubArticles_cache_throw :
    fetchGitHubArticles (.thrown "redis get failed") .absent rspAll500 =
      .error "redis get failed" := rfl

-- ─── YouTube fetcher (src/lib/sources/youtube.ts) ───────────────────

/-- A thumbnail object of the YouTube API. -/
structure YTThumbnail where
  url : String
  width : Option ℕ
  height : Option ℕ
deriving DecidableEq

/-- The thumbnails record of a video snippet. -/
structure YTThumbnails where
  high : Option YTThumbnail
  medium : Option YTThumbnail
  default : Option YTThumbnail
deriving DecidableEq

/-- Snippet part of a video item. -/
structure YTSnippet where
  title : String
  channelTitle : String
  description : String
  thumbnails : YTThumbnails
deriving DecidableEq

/-- Statistics part of a video item.  The wire format carries decimal
strings; they are modelled by the number they denote, with absence kept
as Option so that the viewCount ?? "0" defaults stay visible. -/
structure YTStatistics where
  viewCount : Option ℕ
  likeCount : Option ℕ
  commentCount : Option ℕ
deriving DecidableEq

/-- Content details part of a video item. -/
structure YTContentDetails where
  duration : String
deriving DecidableEq

/-- One video item of the videos.list endpoint. -/
structure YTVideoItem where
  id : String
  snippet : YTSnippet
  statistics : YTStatistics
  contentDetails : YTContentDetails
deriving DecidableEq

/-- The single HTTP response observed by fetchYouTubeArticles; bodyText
is the text body read on a 403 answer. -/
structure YTFetchResponse where
  status : ℕ
  bodyText : String
  items : List YTVideoItem
deriving DecidableEq

/-- Numeric value of a list of decimal digit characters. -/
def digitsToNat (ds : List Char) : ℕ :=
  ds.foldl (fun acc c => acc * 10 + (c.toNat - 48)) 0

/-- One optional regex group (\d+)X of the duration pattern: consume
maximal digits followed by the suffix letter; when the digits are absent
or the letter does not follow, consume nothing. -/
def grabNum (s : List Char) (suffix : Char) : Option ℕ × List Char :=
  let ds := s.takeWhile Char.isDigit
  match s.drop ds.length with
  | c :: r => if c == suffix && !ds.isEmpty then (some (digitsToNat ds), r) else (none, s)
  | [] => (none, s)

/-- Position right after the first occurrence of the literal PT, if any. -/
def dropToPT : List Char → Option (List Char)
  | [] => none
  | 'P' :: 'T' :: r => some r
  | _ :: r => dropToPT r

/-- String(n).padStart(2, "0"). -/
def padTwo (n : ℕ) : String :=
  let t := toString n
  if t.length < 2 then "0" ++ t else t

/-- parseIsoDuration from src/lib/sources/youtube.ts: the regex
PT(?:(\d+)H)?(?:(\d+)M)?(?:(\d+)S)? applied to the first PT occurrence;
no match returns the input unchanged, absent groups default to 0, and
the result is h:mm:ss when hours are positive, else m:ss. -/
def parseIsoDuration (iso : String) : String :=
  match dropToPT iso.toList with
  | none => iso
  | some rest =>
    let hr := grabNum rest 'H'
    let mr := grabNum hr.2 'M'
    let sr := grabNum mr.2 'S'
    let h := hr.1.getD 0
    let m := mr.1.getD 0
    let s := sr.1.getD 0
    if h > 0 then toString h ++ ":" ++ padTwo m ++ ":" ++ padTwo s
    else toString m ++ ":" ++ padTwo s

/-- pickThumbnail from src/lib/sources/youtube.ts: high, else medium,
else default. -/
def pickThumbnail (thumbnails : YTThumbnails) : Option String :=
  match thumbnails.high with
  | some t => some t.url
  | none =>
    match thumbnails.medium with
    | some t => some t.url
    | none => thumbnails.default.map YTThumbnail.url

/-- mapVideosToArticles from src/lib/sources/youtube.ts.  An empty
description sliced to 200 characters is falsy in JavaScript, hence the
excerpt becomes undefined. -/
def mapVideosToArticles (items : List YTVideoItem) : List Article :=
  items.map fun item =>
    { source := .youtube
      title := item.snippet.title
      url := "https://www.youtube.com/watch?v=" ++ item.id
      thumbnailUrl := pickThumbnail item.snippet.thumbnails
      excerpt :=
        if item.snippet.description.take 200 = "" then none
        else some (item.snippet.description.take 200)
      score := ((item.statistics.viewCount.getD 0 : ℕ) : ℚ)
      externalId := item.id
      metadata := [("channel", .str item.snippet.channelTitle),
        ("views", .num ((item.statistics.viewCount.getD 0 : ℕ) : ℚ)),
        ("likes", .num ((item.statistics.likeCount.getD 0 : ℕ) : ℚ)),
        ("comments", .num ((item.statistics.commentCount.getD 0 : ℕ) : ℚ)),
        ("duration", .str (parseIsoDuration item.contentDetails.duration))] }

/-- fetchYouTubeArticles from src/lib/sources/youtube.ts, returning the
settled result together with whether the upstream fetch was performed.
read1 is the initial cache read, read2 the stale read of the catch
block; the API key guard uses JavaScript truthiness, so an unset or
empty YOUTUBE_API_KEY short-circuits to an empty list before any
network call. -/
def fetchYouTubeArticles (read1 read2 : CacheReadResult (List Article))
    (apiKey : Option String) (response : YTFetchResponse) :
    Except String (List Article) × Bool :=
  match read1 with
  | .thrown e => (.error e, false)
  | .value cached => (.ok cached, false)
  | .absent =>
    if apiKey = none ∨ apiKey = some "" then (.ok [], false)
    else
      let attempt : Except String (List Article) :=
        if response.status == 403 then
          .error ("YouTube API responded with 403: " ++ response.bodyText.take 200)
        else if !(decide (200 ≤ response.status ∧ response.status < 300)) then
          .error ("YouTube API responded with " ++ toString response.status)
        else
          .ok (mapVideosToArticles response.items)
      match attempt with
      | .ok articles => (.ok articles, true)
      | .error _ =>
        match read2 with
        | .thrown e => (.error e, true)
        | .value stale => (.ok stale, true)
        | .absent => (.ok [], true)

/-- Claim C8: with the fresh cache read absent and no API key configured,
fetchYouTubeArticles resolves with the empty list (it does not throw)
and performs no network call (second component false), whatever the
stale read or the upstream would have answered. -/
theorem fetchYouTubeArticles_missing_key
    (read2 : CacheReadResult (List Article)) (response : YTFetchResponse) :
    fetchYouTubeArticles .absent read2 none response = (.ok [], false) := by
  simp [fetchYouTubeArticles]

-- ─── Orchestrator (src/app/api/cron/collect/route.ts) ───────────────

/-- Edition type based on the hour of day. -/
inductive EditionType where
  | morning
  | evening
deriving DecidableEq

/-- Edition lifecycle status. -/
inductive EditionStatus where
  | draft
  | published
deriving DecidableEq

/-- One row of the editions table. -/
structure EditionRow where
  id : ℕ
  etype : EditionType
  date : String
  status : EditionStatus
  publishedAt : Option ℕ
deriving DecidableEq

/-- One row of the articles table, as inserted by the route (score is
rounded to an integer on insert). -/
structure ArticleRow where
  editionId : ℕ
  source : ArticleSource
  title : String
  url : String
  thumbnailUrl : Option String
  excerpt : Option String
  score : ℤ
  externalId : String
  metadata : List (String × MetaValue)
deriving DecidableEq

/-- The relational store touched by the route: edition rows, article
rows, and the id the next inserted edition receives. -/
structure Db where
  editions : List EditionRow
  articles : List ArticleRow
  nextEditionId : ℕ
deriving DecidableEq

/-- Result of an awaited promise as seen through Promise.allSettled. -/
inductive Settled (α : Type) where
  | fulfilled (value : α)
  | rejected (reason : String)
deriving DecidableEq

/-- Per-source entry of the result summary (interface SourceResult). -/
structure SourceResult where
  source : String
  status : String
  count : ℕ
  error : Option String
deriving DecidableEq

/-- String name of each article source as used in the summary. -/
def sourceName : ArticleSource → String
  | .hackernews => "hackernews"
  | .github => "github"
  | .github_prs => "github_prs"
  | .reddit => "reddit"
  | .producthunt => "producthunt"
  | .tech_rss => "tech_rss"
  | .hatena => "hatena"
  | .bluesky => "bluesky"
  | .youtube => "youtube"
  | .world_news => "world_news"

/-- Body of the per-source loop of the route: a fulfilled non-empty list
is normalized, top-N selected and counted as success; a rejected promise
or a fulfilled empty list is recorded as a failure contributing no
articles. -/
def processSource (name : ArticleSource) (result : Settled (List Article)) :
    SourceResult × List Article :=
  match result with
  | .fulfilled value =>
    if value.length > 0 then
      let topN := selectTopN (normalizeScores value name) (TOP_N_PER_SOURCE name)
      ({ source := sourceName name, status := "success", count := topN.length,
         error := none }, topN)
    else
      ({ source := sourceName name, status := "failure", count := 0,
         error := some "No articles returned" }, [])
  | .rejected reason =>
    ({ source := sourceName name, status := "failure", count := 0,
       error := some reason }, [])

/-- The nine article sources in the order the route processes them. -/
def articleSourceOrder : List ArticleSource :=
  [.hackernews, .github, .github_prs, .reddit, .tech_rss, .hatena,
    .bluesky, .youtube, .producthunt]

/-- Mapping of a collected article onto an inserted row. -/
def toArticleRow (editionId : ℕ) (article : Article) : ArticleRow :=
  { editionId := editionId
    source := article.source
    title := article.title
    url := article.url
    thumbnailUrl := article.thumbnailUrl
    excerpt := article.excerpt
    score := jsRound article.score
    externalId := article.externalId
    metadata := article.metadata }

/-- The JSON summary of a successful run.  The elapsedMs field is wall
clock time and is outside the embedding; the fire-and-forget widget
cacheSet touches only the Redis side channel and has no effect on the
summary or the rows, so it is not represented. -/
structure RunSummary where
  status : String
  editionId : ℕ
  editionType : EditionType
  date : String
  articlesCollected : ℕ
  sources : List SourceResult
deriving DecidableEq

/-- Route outcome: a 401, the idempotent skip answer, or the summary. -/
inductive CollectResult where
  | unauthorized
  | skipped (editionId : ℕ)
  | success (summary : RunSummary)
deriving DecidableEq

/-- Predicate of the existing-edition query: same type and same date. -/
def matchesSlot (editionType : EditionType) (today : String) (e : EditionRow) : Bool :=
  decide (e.etype = editionType ∧ e.date = today)

/-- Value of the weatherData binding of the route: the fulfilled value
(itself nullable) or null on rejection. -/
def weatherData {W : Type} (weatherResult : Settled (Option W)) : Option W :=
  match weatherResult with
  | .fulfilled v => v
  | .rejected _ => none

/-- Value of the stockData binding of the route: the fulfilled list or
the empty list on rejection. -/
def stockData {S : Type} (stockResult : Settled (List S)) : List S :=
  match stockResult with
  | .fulfilled v => v
  | .rejected _ => []

/-- The weather entry the route pushes into the summary. -/
def weatherEntry {W : Type} (weatherResult : Settled (Option W)) : SourceResult :=
  { source := "weather"
    status := if (weatherData weatherResult).isSome then "success" else "failure"
    count := if (weatherData weatherResult).isSome then 1 else 0
    error := if (weatherData weatherResult).isSome then none else
      some (match weatherResult with
        | .rejected reason => reason
        | .fulfilled _ => "No data") }

/-- The stocks entry the route pushes into the summary. -/
def stockEntry {S : Type} (stockResult : Settled (List S)) : SourceResult :=
  { source := "stocks"
    status := if (stockData stockResult).length > 0 then "success" else "failure"
    count := (stockData stockResult).length
    error := if (stockData stockResult).length = 0 then
      some (match stockResult with
        | .rejected reason => reason
        | .fulfilled _ => "No data") else none }

/-- Collection run of the route after the auth guard, over explicit
inputs: the store, the slot (edition type and date string, both derived
from the wall clock in the source), the settled per-source fetch
results, the settled widget fetch results, and the publish timestamp.
W and S are the weather and stock payload types, which the route treats
opaquely. -/
def runCollect {W S : Type} (db : Db) (editionType : EditionType) (today : String)
    (fetches : ArticleSource → Settled (List Article))
    (weatherResult : Settled (Option W)) (stockResult : Settled (List S))
    (now : ℕ) : Db × CollectResult :=
  match db.editions.find? (matchesSlot editionType today) with
  | some existing => (db, .skipped existing.id)
  | none =>
    let editionId := db.nextEditionId
    let db1 : Db :=
      { db with
        editions := db.editions ++ [⟨editionId, editionType, today, .draft, none⟩]
        nextEditionId := editionId + 1 }
    let processed := articleSourceOrder.map fun s => processSource s (fetches s)
    let sourceResults := processed.map Prod.fst
    let allArticles := (processed.map Prod.snd).flatten
    let db2 : Db :=
      { db1 with articles := db1.articles ++ allArticles.map (toArticleRow editionId) }
    let db3 : Db :=
      { db2 with
        editions := db2.editions.map fun e =>
          if e.id = editionId then { e with status := .published, publishedAt := some now }
          else e }
    (db3, .success
      { status := "success"
        editionId := editionId
        editionType := editionType
        date := today
        articlesCollected := allArticles.length
        sources := sourceResults ++ [weatherEntry weatherResult, stockEntry stockResult] })

/-- Auth guard of the route: a 401 is produced exactly when CRON_SECRET
is truthy (set and non-empty) and the Authorization header is not
Bearer followed by the secret; a missing header is modelled as none and
never equals the Bearer string. -/
def authRejected (cronSecret authHeader : Option String) : Bool :=
  match cronSecret with
  | none => false
  | some s => if s = "" then false else decide (¬ authHeader = some ("Bearer " ++ s))

/-- The GET handler: auth guard, then the collection run. -/
def GET {W S : Type} (cronSecret authHeader : Option String) (db : Db)
    (editionType : EditionType) (today : String)
    (fetches : ArticleSource → Settled (List Article))
    (weatherResult : Settled (Option W)) (stockResult : Settled (List S))
    (now : ℕ) : Db × CollectResult :=
  if authRejected cronSecret authHeader then (db, .unauthorized)
  else runCollect db editionType today fetches weatherResult stockResult now

lemma runCollect_ne_unauthorized {W S : Type} (db : Db) (editionType : EditionType)
    (today : String) (fetches : ArticleSource → Settled (List Article))
    (weatherResult : Settled (Option W)) (stockResult : Settled (List S)) (now : ℕ) :
    (runCollect db editionType today fetches weatherResult stockResult now).2 ≠
      CollectResult.unauthorized := by
  cases hfind : db.editions.find? (matchesSlot editionType today) <;>
    simp [runCollect, hfind]

/-- Claim C9: with no CRON_SECRET configured the endpoint never answers
401 and always runs the collection, whatever the Authorization header
(including a missing one); with a secret configured, 401 is answered
exactly when the secret is non-empty (an empty CRON_SECRET is falsy in
JavaScript, hence treated as unconfigured) and the header is not Bearer
followed by the secret. -/
theorem authGuard_spec :
    (∀ (W S : Type) (authHeader : Option String) (db : Db) (editionType : EditionType)
        (today : String) (fetches : ArticleSource → Settled (List Article))
        (weatherResult : Settled (Option W)) (stockResult : Settled (List S)) (now : ℕ),
      GET none authHeader db editionType today fetches weatherResult stockResult now =
        runCollect db editionType today fetches weatherResult stockResult now ∧
      (GET none authHeader db editionType today fetches weatherResult stockResult now).2 ≠
        CollectResult.unauthorized) ∧
    (∀ (W S : Type) (secret : String) (authHeader : Option String) (db : Db)
        (editionType : EditionType) (today : String)
        (fetches : ArticleSource → Settled (List Article))
        (weatherResult : Settled (Option W)) (stockResult : Settled (List S)) (now : ℕ),
      (GET (some secret) authHeader db editionType today fetches weatherResult
          stockResult now).2 = CollectResult.unauthorized ↔
        (secret ≠ "" ∧ authHeader ≠ some ("Bearer " ++ secret))) := by
  constructor
  · intro W S authHeader db editionType today fetches weatherResult stockResult now
    have hguard : authRejected none authHeader = false := rfl
    refine ⟨by simp [GET, hguard], ?_⟩
    simp only [GET, hguard, Bool.false_eq_true, if_false]
    exact runCollect_ne_unauthorized db editionType today fetches weatherResult stockResult now
  · intro W S secret authHeader db editionType today fetches weatherResult stockResult now
    by_cases hs : secret = ""
    · have hguard : authRejected (some secret) authHeader = false := by
        simp [authRejected, hs]
      simp only [GET, hguard, Bool.false_eq_true, if_false]
      constructor
      · intro h
        exact absurd h (runCollect_ne_unauthorized db editionType today fetches
          weatherResult stockResult now)
      · rintro ⟨h1, _⟩
        exact absurd hs h1
    · by_cases hh : authHeader = some ("Bearer " ++ secret)
      · have hguard : authRejected (some secret) authHeader = false := by
          simp [authRejected, hs, hh]
        simp only [GET, hguard, Bool.false_eq_true, if_false]
        constructor
        · intro h
          exact absurd h (runCollect_ne_unauthorized db editionType today fetches
            weatherResult stockResult now)
        · rintro ⟨_, h2⟩
          exact absurd hh h2
      · have hguard : authRejected (some secret) authHeader = true := by
          simp [authRejected, hs, hh]
        have hget : GET (W := W) (S := S) (some secret) authHeader db editionType today
            fetches weatherResult stockResult now = (db, .unauthorized) := by
          simp [GET, hguard]
        rw [hget]
        exact ⟨fun _ => ⟨hs, hh⟩, fun _ => rfl⟩

/-- A run input where no source returns anything. -/
def noFetches : ArticleSource → Settled (List Article) :=
  fun _ => Settled.fulfilled []

/-- An empty store whose next edition id is 1. -/
def emptyDb : Db :=
  ⟨[], [], 1⟩

/-- Witness for C9: with a configured secret and a wrong header the
endpoint answers 401; the same request with no secret does not. -/
theorem authGuard_spec_witness :
    (GET (W := Unit) (S := Unit) (some "s3cret") (some "Bearer wrong") emptyDb .morning
      "2026-02-07" noFetches (.rejected "w") (.rejected "s") 0).2 =
        CollectResult.unauthorized ∧
    (GET (W := Unit) (S := Unit) none (some "Bearer wrong") emptyDb .morning
      "2026-02-07" noFetches (.rejected "w") (.rejected "s") 0).2 ≠
        CollectResult.unauthorized :=
  ⟨(authGuard_spec.2 Unit Unit "s3cret" (some "Bearer wrong") emptyDb .morning "2026-02-07"
      noFetches (.rejected "w") (.rejected "s") 0).mpr ⟨by decide, by decide⟩,
    (authGuard_spec.1 Unit Unit (some "Bearer wrong") emptyDb .morning "2026-02-07"
      noFetches (.rejected "w") (.rejected "s") 0).2⟩

/-- The draft row the route inserts for a fresh slot. -/
def draftRow (db : Db) (t : EditionType) (d : String) : EditionRow :=
  ⟨db.nextEditionId, t, d, .draft, none⟩

/-- The publish update applied to every edition row (only the fresh id
is affected). -/
def publishRow (editionId now : ℕ) (e : EditionRow) : EditionRow :=
  if e.id = editionId then { e with status := .published, publishedAt := some now }
  else e

lemma runCollect_none_spec {W S : Type} (db : Db) (t : EditionType) (d : String)
    (fetches : ArticleSource → Settled (List Article))
    (w : Settled (Option W)) (s : Settled (List S)) (now : ℕ)
    (hfind : db.editions.find? (matchesSlot t d) = none) :
    runCollect db t d fetches w s now =
      ({ editions := (db.editions ++ [draftRow db t d]).map
            (publishRow db.nextEditionId now)
         articles := db.articles ++
           (((articleSourceOrder.map fun s2 => processSource s2 (fetches s2)).map
              Prod.snd).flatten).map (toArticleRow db.nextEditionId)
         nextEditionId := db.nextEditionId + 1 },
       .success
         { status := "success"
           editionId := db.nextEditionId
           editionType := t
           date := d
           articlesCollected := ((articleSourceOrder.map fun s2 =>
             processSource s2 (fetches s2)).map Prod.snd).flatten.length
           sources := ((articleSourceOrder.map fun s2 =>
             processSource s2 (fetches s2)).map Prod.fst) ++
             [weatherEntry w, stockEntry s] }) := by
  unfold runCollect
  rw [hfind]
  rfl

/-- Claim C10: a source whose fetcher fulfills with an empty list is
recorded with status failure, count 0 and error No articles returned,
the same failure status as a rejected fetcher; success is recorded
exactly for a fulfilled non-empty list.  The last conjunct places the
empty-list failure entry in the summary of an actual run, for any of
the nine sources the route processes. -/
theorem processSource_empty_failure :
    (∀ s : ArticleSource,
      processSource s (.fulfilled []) =
        ({ source := sourceName s, status := "failure", count := 0,
           error := some "No articles returned" }, [])) ∧
    (∀ (s : ArticleSource) (reason : String),
      (processSource s (.rejected reason)).1.status = "failure") ∧
    (∀ (s : ArticleSource) (r : Settled (List Article)),
      (processSource s r).1.status = "success" ↔
        ∃ value, r = .fulfilled value ∧ 0 < value.length) ∧
    (∀ (W S : Type) (db : Db) (editionType : EditionType) (today : String)
        (fetches : ArticleSource → Settled (List Article))
        (weatherResult : Settled (Option W)) (stockResult : Settled (List S)) (now : ℕ)
        (src : ArticleSource) (summary : RunSummary),
      src ∈ articleSourceOrder →
      db.editions.find? (matchesSlot editionType today) = none →
      fetches src = .fulfilled [] →
      (runCollect db editionType today fetches weatherResult stockResult now).2 =
        .success summary →
      ({ source := sourceName src, status := "failure", count := 0,
         error := some "No articles returned" } : SourceResult) ∈ summary.sources) := by
  refine ⟨fun s => by simp [processSource], fun s reason => by simp [processSource], ?_, ?_⟩
  · intro s r
    constructor
    · intro h
      cases r with
      | fulfilled value =>
        by_cases hv : value.length > 0
        · exact ⟨value, rfl, hv⟩
        · simp [processSource, hv] at h
      | rejected reason => simp [processSource] at h
    · rintro ⟨value, rfl, hv⟩
      simp [processSource, hv]
  · intro W S db editionType today fetches weatherResult stockResult now src summary
    intro hmem hfind hsrc hrun
    rw [runCollect_none_spec db editionType today fetches
      weatherResult stockResult now hfind] at hrun
    injection hrun with hrun
    subst hrun
    simp only [List.map_map]
    apply List.mem_append_left
    apply List.mem_map.mpr
    refine ⟨src, hmem, ?_⟩
    simp only [Function.comp_apply]
    rw [hsrc]
    simp [processSource]

/-- Run of the witness scenario for C10: every source fulfills empty. -/
def c10Run : Db × CollectResult :=
  runCollect (W := Unit) (S := Unit) emptyDb .morning "2026-02-07" noFetches
    (.rejected "w") (.rejected "s") 0

/-- Summary of that run. -/
def c10Summary : RunSummary :=
  match c10Run.2 with
  | .success summary => summary
  | _ => ⟨"", 0, .morning, "", 0, []⟩

/-- Witness for C10: the github entry of the all-empty run is the
no-articles failure record. -/
theorem processSource_empty_failure_witness :
    ({ source := "github", status := "failure", count := 0,
       error := some "No articles returned" } : SourceResult) ∈ c10Summary.sources :=
  processSource_empty_failure.2.2.2 Unit Unit emptyDb .morning "2026-02-07" noFetches
    (.rejected "w") (.rejected "s") 0 .github c10Summary (by decide) rfl rfl rfl

lemma runCollect_some {W S : Type} (db : Db) (t : EditionType) (d : String)
    (fetches : ArticleSource → Settled (List Article))
    (w : Settled (Option W)) (s : Settled (List S)) (now : ℕ) (e : EditionRow)
    (hfind : db.editions.find? (matchesSlot t d) = some e) :
    runCollect db t d fetches w s now = (db, .skipped e.id) := by
  unfold runCollect
  rw [hfind]

lemma find?_matchesSlot_none {t : EditionType} {d : String} {l : List EditionRow}
    (h : l.countP (matchesSlot t d) = 0) :
    l.find? (matchesSlot t d) = none :=
  List.find?_eq_none.mpr fun x hx => by simpa using List.countP_eq_zero.mp h x hx

lemma matchesSlot_publish (t2 : EditionType) (d2 : String) (editionId now : ℕ)
    (e : EditionRow) :
    matchesSlot t2 d2 (publishRow editionId now e) = matchesSlot t2 d2 e := by
  by_cases h : e.id = editionId <;> simp [h, matchesSlot, publishRow]

lemma countP_publish (l : List EditionRow) (t2 : EditionType) (d2 : String)
    (editionId now : ℕ) :
    (l.map (publishRow editionId now)).countP (matchesSlot t2 d2) =
      l.countP (matchesSlot t2 d2) := by
  rw [List.countP_map]
  apply List.countP_congr
  intro e _
  rw [Function.comp_apply, matchesSlot_publish]

/-- Claim C1: when an edition for the slot already exists, the run
answers skipped with the id of an existing matching edition and leaves
the store untouched (no edition row, no article row is written); two
sequential runs starting from a store with no edition for the slot
leave exactly one matching edition row, the second answering skipped
with the id created by the first; and every run preserves the
at-most-one-edition-per-slot invariant. -/
theorem edition_idempotency :
    (∀ (W S : Type) (db : Db) (t : EditionType) (d : String)
        (fetches : ArticleSource → Settled (List Article))
        (w : Settled (Option W)) (s : Settled (List S)) (now : ℕ),
      (∃ e0 ∈ db.editions, e0.etype = t ∧ e0.date = d) →
      ∃ e ∈ db.editions, e.etype = t ∧ e.date = d ∧
        runCollect db t d fetches w s now = (db, .skipped e.id)) ∧
    (∀ (W S : Type) (db : Db) (t : EditionType) (d : String)
        (f1 f2 : ArticleSource → Settled (List Article))
        (w1 w2 : Settled (Option W)) (s1 s2 : Settled (List S)) (n1 n2 : ℕ),
      db.editions.countP (matchesSlot t d) = 0 →
      (runCollect db t d f1 w1 s1 n1).1.editions.countP (matchesSlot t d) = 1 ∧
      runCollect (runCollect db t d f1 w1 s1 n1).1 t d f2 w2 s2 n2 =
        ((runCollect db t d f1 w1 s1 n1).1, .skipped db.nextEditionId)) ∧
    (∀ (W S : Type) (db : Db) (t : EditionType) (d : String)
        (fetches : ArticleSource → Settled (List Article))
        (w : Settled (Option W)) (s : Settled (List S)) (now : ℕ),
      (∀ (t2 : EditionType) (d2 : String), db.editions.countP (matchesSlot t2 d2) ≤ 1) →
      ∀ (t2 : EditionType) (d2 : String),
        (runCollect db t d fetches w s now).1.editions.countP (matchesSlot t2 d2) ≤ 1) := by
  refine ⟨?_, ?_, ?_⟩
  · intro W S db t d fetches w s now ⟨e0, he0, ht, hd⟩
    have hsome : (db.editions.find? (matchesSlot t d)).isSome :=
      List.find?_isSome.mpr ⟨e0, he0, by simp [matchesSlot, ht, hd]⟩
    obtain ⟨e, hfind⟩ := Option.isSome_iff_exists.mp hsome
    have hp : matchesSlot t d e = true := List.find?_some hfind
    have hm := List.mem_of_find?_eq_some hfind
    have hp2 : e.etype = t ∧ e.date = d := by simpa [matchesSlot] using hp
    exact ⟨e, hm, hp2.1, hp2.2, runCollect_some db t d fetches w s now e hfind⟩
  · intro W S db t d f1 f2 w1 w2 s1 s2 n1 n2 h0
    have hfind : db.editions.find? (matchesSlot t d) = none := find?_matchesSlot_none h0
    have heq := runCollect_none_spec db t d f1 w1 s1 n1 hfind
    have hnew : matchesSlot t d (draftRow db t d) = true := by
      simp [matchesSlot, draftRow]
    have hr1 : (runCollect db t d f1 w1 s1 n1).1.editions =
        (db.editions ++ [draftRow db t d]).map (publishRow db.nextEditionId n1) := by
      rw [heq]
    constructor
    · rw [hr1, countP_publish, List.countP_append, h0]
      simp [hnew]
    · have hfind2 : (runCollect db t d f1 w1 s1 n1).1.editions.find? (matchesSlot t d) =
          some (publishRow db.nextEditionId n1 (draftRow db t d)) := by
        rw [hr1, List.map_append, List.find?_append]
        have h1 : (db.editions.map (publishRow db.nextEditionId n1)).find?
            (matchesSlot t d) = none := by
          apply List.find?_eq_none.mpr
          intro x hx
          obtain ⟨e, he, rfl⟩ := List.mem_map.mp hx
          rw [matchesSlot_publish]
          simpa using List.countP_eq_zero.mp h0 e he
        rw [h1]
        simp only [List.map_cons, List.map_nil, List.find?_cons, matchesSlot_publish, hnew]
        rfl
      have hid : (publishRow db.nextEditionId n1 (draftRow db t d)).id = db.nextEditionId := by
        simp [publishRow, draftRow]
      rw [← hid]
      exact runCollect_some _ t d f2 w2 s2 n2 _ hfind2
  · intro W S db t d fetches w s now hinv t2 d2
    cases hfind : db.editions.find? (matchesSlot t d) with
    | some e =>
      rw [runCollect_some db t d fetches w s now e hfind]
      exact hinv t2 d2
    | none =>
      rw [runCollect_none_spec db t d fetches w s now hfind]
      rw [countP_publish, List.countP_append]
      by_cases hm : matchesSlot t2 d2 (draftRow db t d) = true
      · have hts : t = t2 ∧ d = d2 := by simpa [matchesSlot, draftRow] using hm
        have h0 : db.editions.countP (matchesSlot t2 d2) = 0 := by
          rw [← hts.1, ← hts.2]
          apply List.countP_eq_zero.mpr
          intro a ha
          simpa using List.find?_eq_none.mp hfind a ha
        rw [h0]
        simp [hm]
      · have hm2 : matchesSlot t2 d2 (draftRow db t d) = false := by
          simpa using hm
        rw [show ([draftRow db t d].countP (matchesSlot t2 d2)) = 0 by simp [hm2]]
        simpa using hinv t2 d2

/-- A store already holding a published morning edition for 2026-02-07. -/
def c1Db : Db :=
  ⟨[⟨7, .morning, "2026-02-07", .published, some 0⟩], [], 8⟩

/-- Witness for C1: invoking the run against that store answers skipped
with the stored id 7 and writes nothing. -/
theorem edition_idempotency_witness :
    ∃ e ∈ c1Db.editions, e.etype = .morning ∧ e.date = "2026-02-07" ∧
      runCollect (W := Unit) (S := Unit) c1Db .morning "2026-02-07" noFetches
        (.rejected "w") (.rejected "s") 0 = (c1Db, .skipped e.id) :=
  edition_idempotency.1 Unit Unit c1Db .morning "2026-02-07" noFetches
    (.rejected "w") (.rejected "s") 0
    ⟨⟨7, .morning, "2026-02-07", .published, some 0⟩, by decide, rfl, rfl⟩

-- ─── Claim C2: partial failure tolerance ────────────────────────────

/-- A source counts as failed for a run when its promise rejected or
fulfilled with an empty list. -/
def sourceFailed (fetches : ArticleSource → Settled (List Article))
    (s : ArticleSource) : Prop :=
  match fetches s with
  | .fulfilled v => v = []
  | .rejected _ => True

/-- The error string the route records for a failed source. -/
def failureMessage (fetches : ArticleSource → Settled (List Article))
    (s : ArticleSource) : String :=
  match fetches s with
  | .fulfilled _ => "No articles returned"
  | .rejected reason => reason

/-- Articles the spec expects in the edition: the concatenation, in
processing order, of the top-K normalized articles of every source that
fulfilled with a non-empty list. -/
def expectedArticles (fetches : ArticleSource → Settled (List Article)) : List Article :=
  articleSourceOrder.flatMap fun s =>
    match fetches s with
    | .fulfilled v =>
      if v.length > 0 then selectTopN (normalizeScores v s) (TOP_N_PER_SOURCE s) else []
    | .rejected _ => []

lemma processSource_snd (s : ArticleSource) (r : Settled (List Article)) :
    (processSource s r).2 =
      match r with
      | .fulfilled v =>
        if v.length > 0 then selectTopN (normalizeScores v s) (TOP_N_PER_SOURCE s) else []
      | .rejected _ => [] := by
  cases r with
  | fulfilled v =>
    by_cases hv : v.length > 0 <;> simp [processSource, hv]
  | rejected reason => simp [processSource]

lemma collected_eq_expected (fetches : ArticleSource → Settled (List Article)) :
    ((articleSourceOrder.map fun s2 => processSource s2 (fetches s2)).map
      Prod.snd).flatten = expectedArticles fetches := by
  rw [List.map_map, expectedArticles]
  rw [show (articleSourceOrder.flatMap fun s =>
      match fetches s with
      | .fulfilled v =>
        if v.length > 0 then selectTopN (normalizeScores v s) (TOP_N_PER_SOURCE s) else []
      | .rejected _ => []) =
    (articleSourceOrder.map fun s =>
      match fetches s with
      | .fulfilled v =>
        if v.length > 0 then selectTopN (normalizeScores v s) (TOP_N_PER_SOURCE s) else []
      | .rejected _ => []).flatten from rfl]
  congr 1
  apply List.map_congr_left
  intro s2 _
  exact processSource_snd s2 (fetches s2)

lemma sourceContribution_nil (fetches : ArticleSource → Settled (List Article))
    (s : ArticleSource) (h : sourceFailed fetches s) :
    (match fetches s with
     | .fulfilled v =>
       if v.length > 0 then selectTopN (normalizeScores v s) (TOP_N_PER_SOURCE s) else []
     | .rejected _ => []) = [] := by
  cases hf : fetches s with
  | fulfilled v =>
    unfold sourceFailed at h
    rw [hf] at h
    simp only at h
    subst h
    simp
  | rejected reason => simp

lemma expectedArticles_nil (fetches : ArticleSource → Settled (List Article))
    (hall : ∀ src, sourceFailed fetches src) :
    expectedArticles fetches = [] := by
  rw [expectedArticles]
  rw [List.flatMap_eq_nil_iff]
  intro s _
  exact sourceContribution_nil fetches s (hall s)

lemma processSource_fst_failed (fetches : ArticleSource → Settled (List Article))
    (s : ArticleSource) (h : sourceFailed fetches s) :
    (processSource s (fetches s)).1 =
      { source := sourceName s, status := "failure", count := 0,
        error := some (failureMessage fetches s) } := by
  cases hf : fetches s with
  | fulfilled v =>
    unfold sourceFailed at h
    rw [hf] at h
    simp only at h
    subst h
    simp [processSource, failureMessage, hf]
  | rejected reason =>
    simp [processSource, failureMessage, hf]

/-- Claim C2: for a run on a slot with no pre-existing edition, whatever
partition of the nine sources into succeeded (fulfilled non-empty) and
failed ones the fetch results realize, the run creates an edition that
ends published, inserts exactly the concatenation of the succeeded
sources top-K normalized articles, reports status success, and each
failed source appears in the summary with status failure and an error;
when every source fails the edition still publishes with zero
articles. -/
theorem partial_failure_tolerance :
    ∀ (W S : Type) (db : Db) (t : EditionType) (d : String)
      (fetches : ArticleSource → Settled (List Article))
      (w : Settled (Option W)) (s : Settled (List S)) (now : ℕ),
      db.editions.countP (matchesSlot t d) = 0 →
      ∃ summary : RunSummary,
        (runCollect db t d fetches w s now).2 = .success summary ∧
        summary.status = "success" ∧
        summary.editionId = db.nextEditionId ∧
        (∃ e ∈ (runCollect db t d fetches w s now).1.editions,
          e.id = db.nextEditionId ∧ e.etype = t ∧ e.date = d ∧
          e.status = EditionStatus.published) ∧
        (runCollect db t d fetches w s now).1.articles =
          db.articles ++ (expectedArticles fetches).map (toArticleRow db.nextEditionId) ∧
        (∀ src ∈ articleSourceOrder, sourceFailed fetches src →
          ({ source := sourceName src, status := "failure", count := 0,
             error := some (failureMessage fetches src) } : SourceResult) ∈
            summary.sources) ∧
        ((∀ src, sourceFailed fetches src) →
          (runCollect db t d fetches w s now).1.articles = db.articles ∧
          summary.articlesCollected = 0) := by
  intro W S db t d fetches w s now h0
  have hfind : db.editions.find? (matchesSlot t d) = none := find?_matchesSlot_none h0
  have heq := runCollect_none_spec db t d fetches w s now hfind
  refine ⟨_, by rw [heq], rfl, rfl, ?_, ?_, ?_, ?_⟩
  · rw [heq]
    refine ⟨publishRow db.nextEditionId now (draftRow db t d), ?_, ?_,
      by simp [publishRow, draftRow], by simp [publishRow, draftRow], ?_⟩
    · exact List.mem_map.mpr ⟨draftRow db t d,
        List.mem_append_right _ (List.mem_singleton.mpr rfl), rfl⟩
    · simp [publishRow, draftRow]
    · simp [publishRow, draftRow]
  · rw [heq]
    show db.articles ++
        (((articleSourceOrder.map fun s2 => processSource s2 (fetches s2)).map
          Prod.snd).flatten).map (toArticleRow db.nextEditionId) =
      db.articles ++ (expectedArticles fetches).map (toArticleRow db.nextEditionId)
    rw [collected_eq_expected]
  · intro src hmem hf
    show _ ∈ (((articleSourceOrder.map fun s2 => processSource s2 (fetches s2)).map
      Prod.fst) ++ [weatherEntry w, stockEntry s])
    apply List.mem_append_left
    rw [List.map_map]
    exact List.mem_map.mpr ⟨src, hmem, by
      rw [Function.comp_apply, processSource_fst_failed fetches src hf]⟩
  · intro hall
    constructor
    · rw [heq]
      show db.articles ++
          (((articleSourceOrder.map fun s2 => processSource s2 (fetches s2)).map
            Prod.snd).flatten).map (toArticleRow db.nextEditionId) = db.articles
      rw [collected_eq_expected, expectedArticles_nil fetches hall]
      simp
    · show ((articleSourceOrder.map fun s2 =>
        processSource s2 (fetches s2)).map Prod.snd).flatten.length = 0
      rw [collected_eq_expected, expectedArticles_nil fetches hall]
      rfl

/-- A concrete hackernews article for the C2 witness. -/
def hnArticle (titleText : String) (raw : ℚ) : Article :=
  { source := .hackernews, title := titleText, url := "https://example.com/" ++ titleText,
    thumbnailUrl := none, excerpt := none, score := raw, externalId := titleText,
    metadata := [] }

/-- Fetch results where hackernews succeeds and every other source
rejects. -/
def c2Fetches : ArticleSource → Settled (List Article)
  | .hackernews => .fulfilled [hnArticle "a" 120, hnArticle "b" 40]
  | _ => .rejected "upstream down"

/-- Witness for C2: the mixed run on an empty store publishes with
status success. -/
theorem partial_failure_tolerance_witness :
    ∃ summary : RunSummary,
      (runCollect (W := Unit) (S := Unit) emptyDb .morning "2026-02-07" c2Fetches
        (.rejected "w") (.rejected "s") 0).2 = .success summary ∧
      summary.status = "success" := by
  obtain ⟨summary, h1, h2, _⟩ := partial_failure_tolerance Unit Unit emptyDb .morning
    "2026-02-07" c2Fetches (.rejected "w") (.rejected "s") 0 (by decide)
  exact ⟨summary, h1, h2⟩

/-- Claim C3: normalizeScores maps every score through the clamp-round
formula of the spec (rounding and clamping commute here), leaves the
other fields alone, lands every normalized score in [0, 100], sends any
raw score at or below the range minimum to 0 and at or above the range
maximum to 100, and on raw scores [0, 250, 600] with the (0, 500) range
of hackernews produces [0, 50, 100]. -/
theorem normalizeScores_spec :
    (∀ (l : List Article) (s : ArticleSource),
      normalizeScores l s = l.map fun a => { a with score := specNormalizedScore s a.score }) ∧
    (∀ (l : List Article) (s : ArticleSource), ∀ a ∈ normalizeScores l s,
      0 ≤ a.score ∧ a.score ≤ 100) ∧
    (∀ (s : ArticleSource) (raw : ℚ),
      raw ≤ (SCORE_RANGES s).min → normalizeScore s raw = 0) ∧
    (∀ (s : ArticleSource) (raw : ℚ),
      (SCORE_RANGES s).max ≤ raw → normalizeScore s raw = 100) ∧
    normalizeScores [hnArticle "x" 0, hnArticle "y" 250, hnArticle "z" 600] .hackernews =
      [{ hnArticle "x" 0 with score := 0 }, { hnArticle "y" 250 with score := 50 },
        { hnArticle "z" 600 with score := 100 }] := by
  refine ⟨?_, ?_, normalizeScore_at_min, normalizeScore_at_max, ?_⟩
  · intro l s
    unfold normalizeScores
    apply List.map_congr_left
    intro a _
    rw [normalizeScore_eq_spec]
  · intro l s a ha
    rw [normalizeScores] at ha
    obtain ⟨b, _, rfl⟩ := List.mem_map.mp ha
    exact ⟨normalizeScore_nonneg s b.score, normalizeScore_le_hundred s b.score⟩
  · simp only [normalizeScores, List.map]
    norm_num [hnArticle, normalizeScore, SCORE_RANGES, jsRound]

/-- Witness for C3: a below-minimum raw score normalizes to 0 and an
above-maximum one to 100. -/
theorem normalizeScores_spec_witness :
    normalizeScore .hackernews (-5) = 0 ∧ normalizeScore .hackernews 600 = 100 :=
  ⟨normalizeScores_spec.2.2.1 .hackernews (-5) (by decide),
    normalizeScores_spec.2.2.2.1 .hackernews 600 (by decide)⟩

end MorningStack
